import Mathlib

/-!
# Verification of `metrics2/teststat/teststat.go`

A shallow embedding of the conformance harness for metric instruments
(`TestCounter`, `TestGauge`, `TestHistogram` and the comparator `cmp`) together
with theorems about it.

## Modelling conventions

* `float64` is modelled by `F64`: the rational numbers extended with the
  IEEE-754 special values `-0`, `+Inf`, `-Inf` and `NaN`.  Arithmetic on finite
  values is carried out exactly (rounding, overflow and underflow are not
  modelled); division by zero, the infinities, the signed zero and `NaN` follow
  IEEE-754.  The counter and gauge procedures only ever add integers between
  `0` and `99`, whose partial sums stay below `2^53`, so for them the exact
  arithmetic coincides with the machine arithmetic.  The properties proved of
  `cmp` relate its verdict to the quotient it computes, to the sign of that
  quotient or to `NaN`, and so do not depend on the quotient being exact; the
  lemma `cmp_num`, which evaluates `cmp` in the exact arithmetic, serves only
  for concrete examples far from a rounding boundary.
* The process-wide random source `math/rand` is an oracle `Rand` giving the
  result of each draw.
* An instrument under test is a state type `σ` with a transition function for
  its capability (`Add`, `Set`, `Observe`); the read-back closure may inspect
  and change that state.
* A Go `error` is `Option String`: `none` is `nil`, `some msg` is an error with
  message `msg`.  A run-time panic of `TestCounter` or `TestGauge` (index out of
  range, `rand.Intn` on a non-positive argument) is the outer `none` of their
  results.
* The rendering of the verb `%f` by package `fmt` is a parameter `fmtF`, and the
  helpers `populateNormal` and `normalQuantiles`, which live in another file of
  the package, are parameters of `TestHistogram`.
-/

namespace teststat

/-! ## The `float64` model -/

/-- Values of Go's `float64`: a finite number (`num 0` is `+0`), the negative
zero, the two infinities and not-a-number. -/
inductive F64 where
  | num (q : ℚ)
  | nzero
  | pinf
  | ninf
  | nan
  deriving DecidableEq

namespace F64

/-- Numeric value of a finite `float64` (`0` for the special values). -/
def toRat : F64 → ℚ
  | num q => q
  | _ => 0

/-- Conversion `float64(v)` of a Go `int`, exact for `|v| <= 2^53`. -/
def ofInt (v : Int) : F64 := num (v : ℚ)

/-- Sign bit of a value that is not `NaN`. -/
def signBit : F64 → Bool
  | num q => decide (q < 0)
  | nzero => true
  | pinf => false
  | ninf => true
  | nan => false

/-- Zero of the given sign. -/
def zeroOf (negative : Bool) : F64 := if negative then nzero else num 0

/-- Infinity of the given sign. -/
def infOf (negative : Bool) : F64 := if negative then ninf else pinf

/-- Unary minus. -/
def neg : F64 → F64
  | num q => if q = 0 then nzero else num (-q)
  | nzero => num 0
  | pinf => ninf
  | ninf => pinf
  | nan => nan

/-- Go's `x + y` on `float64`; a finite sum is kept exact (neither rounded nor
overflowing). -/
def add : F64 → F64 → F64
  | nan, _ => nan
  | _, nan => nan
  | pinf, ninf => nan
  | ninf, pinf => nan
  | pinf, _ => pinf
  | ninf, _ => ninf
  | _, pinf => pinf
  | _, ninf => ninf
  | nzero, nzero => nzero
  | nzero, num q => num q
  | num q, nzero => num q
  | num p, num q => num (p + q)

/-- Go's `x - y` on `float64`, that is `x + (-y)`. -/
def sub (x y : F64) : F64 := add x (neg y)

/-- Go's `math.Abs`. -/
def abs : F64 → F64
  | num q => num |q|
  | nzero => num 0
  | pinf => pinf
  | ninf => pinf
  | nan => nan

/-- Whether the value is one of the two zeros. -/
def isZero : F64 → Bool
  | num q => decide (q = 0)
  | nzero => true
  | _ => false

/-- Whether the value is one of the two infinities. -/
def isInf : F64 → Bool
  | pinf => true
  | ninf => true
  | _ => false

/-- Go's `x / y` on `float64`; a finite non-zero quotient is kept exact (not
rounded). -/
def div (x y : F64) : F64 :=
  if x = nan ∨ y = nan then nan
  else if x.isInf then
    if y.isInf then nan else infOf (xor x.signBit y.signBit)
  else if y.isInf then zeroOf (xor x.signBit y.signBit)
  else if y.isZero then
    if x.isZero then nan else infOf (xor x.signBit y.signBit)
  else if x.isZero then zeroOf (xor x.signBit y.signBit)
  else num (x.toRat / y.toRat)

/-- Go's `x * y` on `float64`; a finite non-zero product is kept exact (not
rounded). -/
def mul (x y : F64) : F64 :=
  if x = nan ∨ y = nan then nan
  else if x.isInf ∨ y.isInf then
    if x.isZero ∨ y.isZero then nan else infOf (xor x.signBit y.signBit)
  else if x.isZero ∨ y.isZero then zeroOf (xor x.signBit y.signBit)
  else num (x.toRat * y.toRat)

/-- Go's `x < y` on `float64`; every comparison with `NaN` is false. -/
def lt : F64 → F64 → Bool
  | nan, _ => false
  | _, nan => false
  | pinf, _ => false
  | _, ninf => false
  | ninf, _ => true
  | _, pinf => true
  | x, y => decide (x.toRat < y.toRat)

/-- Go's `x > y` on `float64`. -/
def gt (x y : F64) : Bool := lt y x

/-- Go's `x == y` on `float64`; `NaN` equals nothing, `-0 == +0`. -/
def eq : F64 → F64 → Bool
  | nan, _ => false
  | _, nan => false
  | pinf, pinf => true
  | ninf, ninf => true
  | pinf, _ => false
  | ninf, _ => false
  | _, pinf => false
  | _, ninf => false
  | x, y => decide (x.toRat = y.toRat)

/-- Go's `x != y` on `float64`. -/
def ne (x y : F64) : Bool := !eq x y

/-- Go's `x <= y` on `float64`. -/
def le (x y : F64) : Bool := lt x y || eq x y

end F64

/-! ## The comparator -/

/-- Source: `func cmp(want, have, tol float64) bool` (teststat.go, lines 88-93). -/
def cmp (want hv tol : F64) : Bool :=
  if F64.gt (F64.div (F64.abs (F64.sub want hv)) want) tol then
    false
  else
    true

/-! ## Collaborators of the harness -/

/-- The interface `metrics.Counter`, restricted to the method the harness
calls; `σ` is the state of the instrument under test. -/
structure Counter (σ : Type) where
  Add : F64 → σ → σ

/-- The interface `metrics.Gauge`, restricted to the method the harness calls. -/
structure Gauge (σ : Type) where
  Set : F64 → σ → σ

/-- The interface `metrics.Histogram`, restricted to the method the harness
calls. -/
structure Histogram (σ : Type) where
  Observe : F64 → σ → σ

/-- The draws of the process-wide source `math/rand`: `Perm k` is the slice
returned by `rand.Perm(k)`, `Intn k` the number returned by `rand.Intn(k)` for
`k > 0` and `Int` the number returned by `rand.Int()`. -/
structure Rand where
  Perm : Nat → List Int
  Intn : Nat → Nat
  Int : Int

/-- The contract of `math/rand` for the draws the harness makes: `rand.Perm(k)`
is a permutation of `0, ..., k-1` and `rand.Intn(k)` lies in `[0, k)`. -/
def Rand.Lawful (rand : Rand) : Prop :=
  (∀ k : Nat, List.Perm (rand.Perm k) ((List.range k).map Int.ofNat)) ∧
  (∀ k : Nat, 0 < k → rand.Intn k < k)

/-- The package-level helpers of `teststat` that `TestHistogram` calls and whose
bodies are in another file of the package: `populateNormal(histogram, seed,
mean, stdev)` feeds observations to any histogram and `normalQuantiles(mean,
stdev)` returns the expected `(p50, p90, p95, p99)`. -/
structure Helpers where
  populateNormal : {σ : Type} → Histogram σ → Int → Int → Int → σ → σ
  normalQuantiles : Int → Int → F64 × F64 × F64 × F64

/-! ## The verification procedures -/

/-- Source: the loop of `TestCounter` (teststat.go, lines 20-25), entered with
loop variable `i`, instrument state `s` and accumulator `want`; returns the
instrument state and `want` at loop exit. -/
def TestCounter.loop {σ : Type} (counter : Counter σ) (a : List Int) (n : Nat)
    (i : Nat) (s : σ) (want : F64) : Option (σ × F64) :=
  if i < n then
    match a[i]? with
    | none => none
    | some v =>
      let f := F64.ofInt v
      TestCounter.loop counter a n (i + 1) (counter.Add f s) (F64.add want f)
  else
    some (s, want)
termination_by n - i

/-- Source: `func TestCounter(counter metrics.Counter, value func() float64)
error` (teststat.go, lines 16-32).  `fmtF` renders the verb `%f`. -/
def TestCounter {σ : Type} (fmtF : F64 → String) (counter : Counter σ)
    (value : σ → F64 × σ) (rand : Rand) (s : σ) : Option (Option String × σ) :=
  let a := rand.Perm 100
  if a.length = 0 then none
  else
    let n := rand.Intn a.length
    match TestCounter.loop counter a n 0 s (F64.num 0) with
    | none => none
    | some (s1, want) =>
      let r := value s1
      if F64.ne want r.1 then
        some (some ("want " ++ fmtF want ++ ", have " ++ fmtF r.1), r.2)
      else
        some (none, r.2)

/-- Source: the loop of `TestGauge` (teststat.go, lines 40-45). -/
def TestGauge.loop {σ : Type} (gauge : Gauge σ) (a : List Int) (n : Nat)
    (i : Nat) (s : σ) (want : F64) : Option (σ × F64) :=
  if i < n then
    match a[i]? with
    | none => none
    | some v =>
      let f := F64.ofInt v
      TestGauge.loop gauge a n (i + 1) (gauge.Set f s) f
  else
    some (s, want)
termination_by n - i

/-- Source: `func TestGauge(gauge metrics.Gauge, value func() float64) error`
(teststat.go, lines 36-52). -/
def TestGauge {σ : Type} (fmtF : F64 → String) (gauge : Gauge σ)
    (value : σ → F64 × σ) (rand : Rand) (s : σ) : Option (Option String × σ) :=
  let a := rand.Perm 100
  if a.length = 0 then none
  else
    let n := rand.Intn a.length
    match TestGauge.loop gauge a n 0 s (F64.num 0) with
    | none => none
    | some (s1, want) =>
      let r := value s1
      if F64.ne want r.1 then
        some (some ("want " ++ fmtF want ++ ", have " ++ fmtF r.1), r.2)
      else
        some (none, r.2)

/-- Source: the four checks of `TestHistogram` (teststat.go, lines 68-80): the
slice `errs` after the checks of p50, p90, p95 and p99. -/
def TestHistogram.errs (fmtF : F64 → String) (want hv : F64 × F64 × F64 × F64)
    (tolerance : F64) : List String :=
  let errs : List String := []
  let errs :=
    if !cmp want.1 hv.1 tolerance then
      errs ++ ["p50: want " ++ fmtF want.1 ++ ", have " ++ fmtF hv.1]
    else errs
  let errs :=
    if !cmp want.2.1 hv.2.1 tolerance then
      errs ++ ["p90: want " ++ fmtF want.2.1 ++ ", have " ++ fmtF hv.2.1]
    else errs
  let errs :=
    if !cmp want.2.2.1 hv.2.2.1 tolerance then
      errs ++ ["p95: want " ++ fmtF want.2.2.1 ++ ", have " ++ fmtF hv.2.2.1]
    else errs
  let errs :=
    if !cmp want.2.2.2 hv.2.2.2 tolerance then
      errs ++ ["p99: want " ++ fmtF want.2.2.2 ++ ", have " ++ fmtF hv.2.2.2]
    else errs
  errs

/-- Source: `func TestHistogram(histogram metrics.Histogram, quantiles func()
(p50, p90, p95, p99 float64), tolerance float64) error` (teststat.go, lines
57-86). -/
def TestHistogram {σ : Type} (fmtF : F64 → String) (helpers : Helpers)
    (histogram : Histogram σ) (quantiles : σ → (F64 × F64 × F64 × F64) × σ)
    (tolerance : F64) (rand : Rand) (s : σ) : Option String × σ :=
  let seed := rand.Int
  let mean : Int := 500
  let stdev : Int := 25
  let s1 := helpers.populateNormal histogram seed mean stdev s
  let want := helpers.normalQuantiles mean stdev
  let r := quantiles s1
  let errs := TestHistogram.errs fmtF want r.1 tolerance
  if errs.length > 0 then
    (some (String.intercalate "; " errs), r.2)
  else
    (none, r.2)

/-! ## Vocabulary of the specification -/

/-- Apply a capability to every value of a workload, in order. -/
def feed {σ : Type} (step : F64 → σ → σ) (w : List F64) (s : σ) : σ :=
  w.foldl (fun t f => step f t) s

/-- The workload of a counter or gauge run: the first `n` entries of the drawn
slice `a`, each converted to `float64`. -/
def workload (a : List Int) (n : Nat) : List F64 := (a.take n).map F64.ofInt

/-- The sum of the first `n` entries of the drawn slice `a`, each converted to a
real number. -/
def total (a : List Int) (n : Nat) : ℚ := ((a.take n).map (fun v => (v : ℚ))).sum

/-- The integers `0, ..., 99`. -/
def zeroTo99 : List Int := (List.range 100).map Int.ofNat

/-- The specification's comparator, section 4.3:
`matches(want, have, tolerance) = (|want - have| / |want|) <= tolerance`. -/
def matchesSpec (want hv tolerance : F64) : Bool :=
  F64.le (F64.div (F64.abs (F64.sub want hv)) (F64.abs want)) tolerance

/-- The inequality `|want - have| <= tolerance * want` of the comparator
examples, section 8, read on `float64` values. -/
def productSpec (want hv tolerance : F64) : Bool :=
  F64.le (F64.abs (F64.sub want hv)) (F64.mul tolerance want)

/-- A counter that keeps the running total of its deltas. -/
def sumCounter : Counter F64 where
  Add := fun f s => F64.add s f

/-- A gauge that keeps the value last set. -/
def lastGauge : Gauge F64 where
  Set := fun f _ => f

/-- A read-back closure that reports the instrument state unchanged. -/
def readState (s : F64) : F64 × F64 := (s, s)

/-- A rendering of `%f` used in examples. -/
def fmtStub (_ : F64) : String := "?"

/-- A permutation of `0, ..., 99` that starts with `3, 41, 7`. -/
def permA : List Int :=
  [3, 41, 7] ++ zeroTo99.filter (fun v => v ≠ 3 ∧ v ≠ 41 ∧ v ≠ 7)

/-- A random source that draws `permA` and the length `3`. -/
def randA : Rand where
  Perm := fun k => if k = 100 then permA else (List.range k).map Int.ofNat
  Intn := fun k => if 3 < k then 3 else 0
  Int := 0

/-- Stand-ins for the package helpers, used in examples: one observation of the
mean, and the expected quantiles `(500, 532, 541, 558)`. -/
def helpersStub : Helpers where
  populateNormal := fun histogram _ mean _ s => histogram.Observe (F64.ofInt mean) s
  normalQuantiles := fun _ _ => (F64.num 500, F64.num 532, F64.num 541, F64.num 558)

/-- A histogram that ignores its observations. -/
def nullHistogram : Histogram Unit where
  Observe := fun _ s => s

/-- A read-back closure reporting `(500, 600, 541, 700)`: p90 and p99 are far
from the expected quantiles of `helpersStub`, p50 and p95 agree with them. -/
def readBadTails (s : Unit) : (F64 × F64 × F64 × F64) × Unit :=
  ((F64.num 500, F64.num 600, F64.num 541, F64.num 700), s)

/-- The labelled message of one failed quantile check. -/
def quantileMsg (fmtF : F64 → String) (label : String) (want hv : F64) : String :=
  label ++ ": want " ++ fmtF want ++ ", have " ++ fmtF hv

/-- One interaction of a verification procedure with the instrument under
test: a call of `Add`, a call of `Set`, or an invocation of the read-back
closure. -/
inductive Call where
  | add (f : F64)
  | set (f : F64)
  | read
  deriving DecidableEq

/-- A counter that records every call of `Add`. -/
def recCounter : Counter (List Call) where
  Add := fun f t => t ++ [Call.add f]

/-- A gauge that records every call of `Set`. -/
def recGauge : Gauge (List Call) where
  Set := fun f t => t ++ [Call.set f]

/-- A read-back closure that records its invocation and reports `g` of the
interactions so far. -/
def recRead (g : List Call → F64) (t : List Call) : F64 × List Call :=
  (g t, t ++ [Call.read])

/-- A read-back closure for the histogram that reports `NaN` for all four
quantiles. -/
def readNaN {σ : Type} (s : σ) : (F64 × F64 × F64 × F64) × σ :=
  ((F64.nan, F64.nan, F64.nan, F64.nan), s)

/-- The permutation `1, 2, ..., 99, 0` of `0, ..., 99`. -/
def permB : List Int := (List.range 100).map (fun i => ((i + 1) % 100 : Nat))

/-- A random source that draws `permB` and the length `99`. -/
def randB : Rand where
  Perm := fun k => if k = 100 then permB else (List.range k).map Int.ofNat
  Intn := fun k => if 99 < k then 99 else 0
  Int := 0

/-- A random source that draws the length `0`. -/
def randZero : Rand where
  Perm := fun k => (List.range k).map Int.ofNat
  Intn := fun _ => 0
  Int := 0

open F64 (num nzero pinf ninf nan)

/-! ## Lemmas on the `float64` model -/

theorem F64.add_num_ofInt (p : ℚ) (v : Int) :
    F64.add (F64.num p) (F64.ofInt v) = F64.num (p + v) := by
  simp [F64.add, F64.ofInt]

theorem F64.eq_num_iff (q : ℚ) (hv : F64) :
    F64.eq (F64.num q) hv = true ↔ (hv = F64.num q ∨ (hv = F64.nzero ∧ q = 0)) := by
  cases hv <;> simp [F64.eq, F64.toRat, eq_comm]

theorem sum_cast (l : List Int) :
    (((l.sum : Int)) : ℚ) = (l.map (fun v => (v : ℚ))).sum := by
  induction l with
  | nil => simp
  | cons x xs ih => simp [ih]

theorem perm_length {a : List Int} (hperm : List.Perm a zeroTo99) : a.length = 100 := by
  simpa [zeroTo99] using hperm.length_eq

/-! ## The loops -/

theorem TestCounter_loop_spec {σ : Type} (counter : Counter σ) (a : List Int) (n : Nat)
    (hn : n ≤ a.length) :
    ∀ (k i : Nat) (s : σ) (p : ℚ), i + k = n →
      TestCounter.loop counter a n i s (F64.num p) =
        some (feed counter.Add (((a.drop i).take k).map F64.ofInt) s,
              F64.num (p + ((((a.drop i).take k).sum : Int) : ℚ))) := by
  intro k
  induction k with
  | zero =>
    intro i s p h
    rw [TestCounter.loop]
    simp [feed]
    omega
  | succ k ih =>
    intro i s p h
    have hi : i < a.length := by omega
    have hlt : i < n := by omega
    rw [TestCounter.loop]
    simp only [hlt, if_true, List.getElem?_eq_getElem hi]
    rw [F64.add_num_ofInt, ih (i + 1) _ _ (by omega)]
    rw [List.drop_eq_getElem_cons hi]
    simp [feed, add_assoc, -List.getElem_cons_drop]

theorem TestGauge_loop_spec {σ : Type} (gauge : Gauge σ) (a : List Int) (n : Nat)
    (hn : n ≤ a.length) :
    ∀ (k i : Nat) (s : σ) (want : F64), i + k = n →
      TestGauge.loop gauge a n i s want =
        some (feed gauge.Set (((a.drop i).take k).map F64.ofInt) s,
              ((((a.drop i).take k).getLast?).map F64.ofInt).getD want) := by
  intro k
  induction k with
  | zero =>
    intro i s want h
    rw [TestGauge.loop]
    simp [feed]
    omega
  | succ k ih =>
    intro i s want h
    have hi : i < a.length := by omega
    have hlt : i < n := by omega
    rw [TestGauge.loop]
    simp only [hlt, if_true, List.getElem?_eq_getElem hi]
    rw [ih (i + 1) _ _ (by omega), List.drop_eq_getElem_cons hi]
    simp only [List.take_succ_cons, List.map_cons, feed, List.foldl_cons]
    congr 2
    cases hk : List.take k (List.drop (i + 1) a) with
    | nil => simp
    | cons x xs =>
      rw [List.getLast?_cons_cons, List.getLast?_eq_getLast _ (List.cons_ne_nil x xs)]
      simp

theorem take_getLast? (a : List Int) (n : Nat) (h1 : 1 ≤ n) (hn : n ≤ a.length) :
    (a.take n).getLast? = a[n - 1]? := by
  rw [List.getLast?_eq_getElem?]
  simp [List.length_take, Nat.min_eq_left hn, List.getElem?_take]
  omega

/-- What a run of `TestCounter` does when the drawn slice has 100 entries and
the drawn length is at most 100. -/
theorem TestCounter_run {σ : Type} (fmtF : F64 → String) (counter : Counter σ)
    (value : σ → F64 × σ) (rand : Rand) (s : σ) (hlen : (rand.Perm 100).length = 100)
    (hlt : rand.Intn 100 ≤ 100) :
    TestCounter fmtF counter value rand s =
      (let a := rand.Perm 100
       let n := rand.Intn 100
       let want := F64.num ((a.take n).map (fun v => (v : ℚ))).sum
       let r := value (feed counter.Add (workload a n) s)
       if F64.ne want r.1 then
         some (some ("want " ++ fmtF want ++ ", have " ++ fmtF r.1), r.2)
       else some (none, r.2)) := by
  have h := TestCounter_loop_spec counter (rand.Perm 100) (rand.Intn 100) (by omega)
    (rand.Intn 100) 0 s 0 (by omega)
  simp only [TestCounter, hlen, h, workload, List.drop_zero, zero_add, sum_cast]
  simp

/-- What a run of `TestGauge` does when the drawn slice has 100 entries and the
drawn length is at most 100. -/
theorem TestGauge_run {σ : Type} (fmtF : F64 → String) (gauge : Gauge σ)
    (value : σ → F64 × σ) (rand : Rand) (s : σ) (hlen : (rand.Perm 100).length = 100)
    (hlt : rand.Intn 100 ≤ 100) :
    TestGauge fmtF gauge value rand s =
      (let a := rand.Perm 100
       let n := rand.Intn 100
       let want := (((a.take n).getLast?).map F64.ofInt).getD (F64.num 0)
       let r := value (feed gauge.Set (workload a n) s)
       if F64.ne want r.1 then
         some (some ("want " ++ fmtF want ++ ", have " ++ fmtF r.1), r.2)
       else some (none, r.2)) := by
  have h := TestGauge_loop_spec gauge (rand.Perm 100) (rand.Intn 100) (by omega)
    (rand.Intn 100) 0 s (F64.num 0) (by omega)
  simp only [TestGauge, hlen, h, workload, List.drop_zero]
  simp

theorem permA_perm : List.Perm permA zeroTo99 := by
  decide

/-! ## Counter and gauge -/

theorem randA_lawful : randA.Lawful := by
  constructor
  · intro k
    by_cases hk : k = 100
    · subst hk
      simpa [randA, zeroTo99] using permA_perm
    · simp [randA, hk]
  · intro k hk
    simp only [randA]
    by_cases h3 : 3 < k
    · simp [h3]
    · simp only [h3, if_false]; exact hk

/-- C1 (counter exactness): for every permutation `a` of `0..99` drawn by
`rand.Perm(100)`, every length `n` drawn by `rand.Intn(len(a))` and every value
`hv` returned by the read-back closure, `TestCounter` returns (no panic) and its
error is `nil` if and only if `hv` is equal, under Go's `==` on `float64`, to the
sum of the first `n` entries of `a`, each converted to a real, that is, `hv` is
that number (or `-0` when the sum is `0`); in every other case it is the error
`"want <sum>, have <hv>"`.  On the workload `[3.0, 41.0, 7.0]` the expected
total at loop exit is `51.0`. -/
theorem TestCounter_exact {σ : Type} (fmtF : F64 → String) (counter : Counter σ)
    (value : σ → F64 × σ) (rand : Rand) (s : σ) (a : List Int) (n : Nat) (hv : F64)
    (ha : rand.Perm 100 = a) (hperm : List.Perm a zeroTo99)
    (hn : rand.Intn a.length = n) (hlt : n < 100)
    (hread : (value (feed counter.Add (workload a n) s)).1 = hv) :
    (∃ r, TestCounter fmtF counter value rand s = some r ∧
      (r.1 = none ↔ F64.eq (F64.num (total a n)) hv = true) ∧
      (r.1 = none ↔ (hv = F64.num (total a n) ∨ (hv = F64.nzero ∧ total a n = 0))) ∧
      (r.1 = if F64.eq (F64.num (total a n)) hv then none
        else some ("want " ++ fmtF (F64.num (total a n)) ++ ", have " ++ fmtF hv))) ∧
    (TestCounter.loop counter [3, 41, 7] 3 0 s (F64.num 0)).map Prod.snd
      = some (F64.num 51) := by
  have hlen : a.length = 100 := perm_length hperm
  subst ha
  rw [hlen] at hn
  subst hn
  refine ⟨?_, ?_⟩
  · rw [TestCounter_run fmtF counter value rand s hlen (by omega)]
    simp only [hread, ← F64.eq_num_iff]
    rw [show ((List.take (rand.Intn 100) (rand.Perm 100)).map (fun v => (v : ℚ))).sum
      = total (rand.Perm 100) (rand.Intn 100) from rfl]
    generalize F64.num (total (rand.Perm 100) (rand.Intn 100)) = want
    by_cases h : F64.eq want hv = true
    · simp [F64.ne, h]
    · simp [F64.ne, h]
  · rw [TestCounter_loop_spec counter [3, 41, 7] 3 (by simp) 3 0 s 0 (by omega)]
    simp

/-- Witness for C1: the reference counter, read back faithfully, run on a
permutation starting `3, 41, 7` with drawn length `3`, whose total is `51`. -/
theorem TestCounter_exact_witness :
    List.Perm permA zeroTo99 ∧ (3 : Nat) < 100 ∧ total permA 3 = 51 ∧
    (readState (feed sumCounter.Add (workload permA 3) (F64.num 0))).1 = F64.num 51 ∧
    (∃ r, TestCounter fmtStub sumCounter readState randA (F64.num 0) = some r ∧
      (r.1 = none ↔ F64.eq (F64.num (total permA 3)) (F64.num 51) = true)) :=
  have hread : (readState (feed sumCounter.Add (workload permA 3) (F64.num 0))).1
      = F64.num 51 := by
    simp [feed, workload, permA, sumCounter, readState, F64.add, F64.ofInt]
    norm_num
  ⟨permA_perm, by decide, by simp [total, permA]; norm_num, hread,
    (TestCounter_exact fmtStub sumCounter readState randA (F64.num 0) permA 3 (F64.num 51)
      rfl permA_perm rfl (by decide) hread).1.imp (fun _ h => ⟨h.1, h.2.1⟩)⟩

/-- C2 (gauge last-write-wins): for every permutation `a` of `0..99` drawn by
`rand.Perm(100)`, every drawn length `n >= 1` and every value `hv` returned by
the read-back closure, `TestGauge` returns (no panic) and its error is `nil` if
and only if `hv` is equal, under Go's `==` on `float64`, to the last workload
value `a[n-1]`; the returned error is a function of `a[n-1]` and `hv` alone, so
no earlier value influences it.  On the workload `[10.0, -4.0, 99.0]` the
expected value at loop exit is `99.0`. -/
theorem TestGauge_last {σ : Type} (fmtF : F64 → String) (gauge : Gauge σ)
    (value : σ → F64 × σ) (rand : Rand) (s : σ) (a : List Int) (n : Nat) (v : Int)
    (hv : F64) (ha : rand.Perm 100 = a) (hperm : List.Perm a zeroTo99)
    (hn : rand.Intn a.length = n) (h1 : 1 ≤ n) (hlt : n < 100)
    (hlast : a[n - 1]? = some v)
    (hread : (value (feed gauge.Set (workload a n) s)).1 = hv) :
    (∃ r, TestGauge fmtF gauge value rand s = some r ∧
      (r.1 = none ↔ F64.eq (F64.ofInt v) hv = true) ∧
      (r.1 = none ↔ (hv = F64.num v ∨ (hv = F64.nzero ∧ v = 0))) ∧
      (r.1 = if F64.eq (F64.ofInt v) hv then none
        else some ("want " ++ fmtF (F64.ofInt v) ++ ", have " ++ fmtF hv))) ∧
    (TestGauge.loop gauge [10, -4, 99] 3 0 s (F64.num 0)).map Prod.snd
      = some (F64.num 99) := by
  have hlen : a.length = 100 := perm_length hperm
  subst ha
  rw [hlen] at hn
  subst hn
  refine ⟨?_, ?_⟩
  · rw [TestGauge_run fmtF gauge value rand s hlen (by omega)]
    simp only [hread, take_getLast? _ _ h1 (by omega : rand.Intn 100 ≤ (rand.Perm 100).length),
      hlast, Option.map_some', Option.getD_some]
    have hiff : (hv = F64.num v ∨ (hv = F64.nzero ∧ v = 0)) ↔ F64.eq (F64.ofInt v) hv = true := by
      rw [F64.ofInt, F64.eq_num_iff]
      simp
    rw [hiff]
    by_cases h : F64.eq (F64.ofInt v) hv = true
    · simp [F64.ne, h]
    · simp [F64.ne, h]
  · rw [TestGauge_loop_spec gauge [10, -4, 99] 3 (by simp) 3 0 s _ (by omega)]
    simp [F64.ofInt]

/-- Witness for C2: the reference gauge, read back faithfully, run on a
permutation starting `3, 41, 7` with drawn length `3`, whose last value is `7`. -/
theorem TestGauge_last_witness :
    List.Perm permA zeroTo99 ∧ (1 : Nat) ≤ 3 ∧ (3 : Nat) < 100 ∧
    permA[3 - 1]? = some 7 ∧
    (readState (feed lastGauge.Set (workload permA 3) (F64.num 0))).1 = F64.num 7 ∧
    (∃ r, TestGauge fmtStub lastGauge readState randA (F64.num 0) = some r ∧
      (r.1 = none ↔ F64.eq (F64.ofInt 7) (F64.num 7) = true)) :=
  have hread : (readState (feed lastGauge.Set (workload permA 3) (F64.num 0))).1
      = F64.num 7 := by
    simp [feed, workload, permA, lastGauge, readState, F64.ofInt]
  ⟨permA_perm, by decide, by decide, by decide, hread,
    (TestGauge_last fmtStub lastGauge readState randA (F64.num 0) permA 3 7 (F64.num 7)
      rfl permA_perm rfl (by decide) (by decide) (by decide) hread).1.imp
      (fun _ h => ⟨h.1, h.2.1⟩)⟩

/-! ## The comparator -/


theorem F64.sub_num_num (w h : ℚ) : F64.sub (num w) (num h) = num (w - h) := by
  by_cases hh : h = 0
  · simp [F64.sub, F64.neg, F64.add, hh]
  · simp [F64.sub, F64.neg, F64.add, hh, sub_eq_add_neg]

/-- The relative error evaluated by `cmp` on finite arguments with a non-zero
expected value is a finite number (possibly a zero of either sign) whose value
is `|w - h| / w`. -/
theorem relErr_num (w h : ℚ) (hw : w ≠ 0) :
    (F64.div (F64.abs (F64.sub (num w) (num h))) (num w) ≠ nan ∧
     (F64.div (F64.abs (F64.sub (num w) (num h))) (num w)).isInf = false) ∧
    (F64.div (F64.abs (F64.sub (num w) (num h))) (num w)).toRat = |w - h| / w := by
  rw [F64.sub_num_num]
  by_cases hz : |w - h| = 0
  · simp only [F64.div, F64.abs, F64.isInf, F64.isZero, F64.toRat, hz, hw, F64.zeroOf]
    by_cases hs : xor (num 0).signBit (num w).signBit = true <;> simp [hs, F64.toRat, F64.isInf]
  · simp [F64.div, F64.abs, F64.isInf, F64.isZero, F64.toRat, hz, hw]

theorem F64.lt_num_of_finite (t : ℚ) (x : F64) (hx : x ≠ nan) (hi : x.isInf = false) :
    F64.lt (num t) x = decide (t < x.toRat) := by
  cases x <;> simp_all [F64.lt, F64.toRat, F64.isInf]

/-- Evaluation of `cmp` on finite arguments in the exact arithmetic of the model;
used for concrete examples whose outcome is far from a rounding boundary. -/
theorem cmp_num (w h t : ℚ) (hw : w ≠ 0) :
    cmp (num w) (num h) (num t) = decide (¬ t < |w - h| / w) := by
  obtain ⟨⟨h1, h2⟩, h3⟩ := relErr_num w h hw
  simp only [cmp, F64.gt, F64.lt_num_of_finite t _ h1 h2, h3]
  by_cases hlt : t < |w - h| / w <;> simp [hlt]


theorem decide_lt_trichotomy (p q : ℚ) :
    decide (q < p) = (!decide (p < q) && !decide (p = q)) := by
  rcases lt_trichotomy p q with h | h | h
  · simp [h, not_lt_of_lt h]
  · simp [h]
  · simp [h, not_lt_of_lt h, ne_of_gt h]

theorem F64.not_lt_eq_le (x y : F64) (hx : x ≠ nan) (hy : y ≠ nan) :
    (!F64.lt y x) = F64.le x y := by
  cases x <;> cases y <;> simp_all [F64.lt, F64.le, F64.eq, F64.toRat] <;>
    exact decide_lt_trichotomy _ _

theorem relErr_ne_nan (w : ℚ) (hw : w ≠ 0) (hv : F64) (hhv : hv ≠ nan) :
    F64.div (F64.abs (F64.sub (num w) hv)) (num w) ≠ nan := by
  cases hv with
  | num h => exact (relErr_num w h hw).1.1
  | nzero =>
    have := (relErr_num w 0 hw).1.1
    simpa [F64.sub, F64.neg, F64.add] using this
  | pinf =>
    simp [F64.sub, F64.neg, F64.add, F64.abs, F64.div, F64.isInf, F64.infOf]
    split <;> simp
  | ninf =>
    simp [F64.sub, F64.neg, F64.add, F64.abs, F64.div, F64.isInf, F64.infOf]
    split <;> simp
  | nan => exact absurd rfl hhv

theorem cmp_eq_not_gt (want hv tol : F64) :
    cmp want hv tol = !F64.gt (F64.div (F64.abs (F64.sub want hv)) want) tol := by
  unfold cmp
  cases F64.gt (F64.div (F64.abs (F64.sub want hv)) want) tol <;> rfl

/-- C3 (as amended): for every finite expected value `want > 0` and every
observed value and tolerance other than `NaN`, `cmp` agrees with the
specification's comparator `matches(want, have, tolerance) =
(|want - have| / |want|) <= tolerance`, the quotient being the `float64` value
that both compute. -/
theorem cmp_matches_of_pos (want : ℚ) (hv tol : F64) (hpos : 0 < want)
    (hhv : hv ≠ F64.nan) (htol : tol ≠ F64.nan) :
    cmp (F64.num want) hv tol = matchesSpec (F64.num want) hv tol := by
  rw [cmp_eq_not_gt, matchesSpec, F64.gt,
    F64.not_lt_eq_le _ _ (relErr_ne_nan want (ne_of_gt hpos) hv hhv) htol]
  simp [F64.abs, abs_of_pos hpos]

/-- Witness for C3 (as amended): expected value `100`, observed value `101`,
tolerance `1/50`. -/
theorem cmp_matches_of_pos_witness :
    (0 : ℚ) < 100 ∧
    cmp (F64.num 100) (F64.num 101) (F64.num (1 / 50))
      = matchesSpec (F64.num 100) (F64.num 101) (F64.num (1 / 50)) :=
  ⟨by norm_num,
   cmp_matches_of_pos 100 (F64.num 101) (F64.num (1 / 50)) (by norm_num)
      (by simp) (by simp)⟩


/-- Counterexample to C3 as stated: with expected value `-100`, observed value
`0` and tolerance `1/2` the relative error against the magnitude of the expected
value is `1 > 1/2`, so the specification's comparator rejects, but `cmp` divides
by `want` itself, obtains `-1` and accepts. -/
theorem cmp_relative_counterexample :
    cmp (F64.num (-100)) (F64.num 0) (F64.num (1 / 2)) = true ∧
    matchesSpec (F64.num (-100)) (F64.num 0) (F64.num (1 / 2)) = false ∧
    ¬ (|(-100 : ℚ) - 0| / |(-100 : ℚ)| ≤ 1 / 2) := by
  refine ⟨?_, ?_, ?_⟩
  · rw [cmp_num _ _ _ (by norm_num)]
    norm_num
  · simp [matchesSpec, F64.sub, F64.neg, F64.add, F64.abs, F64.div, F64.isInf, F64.isZero,
      F64.toRat, F64.le, F64.lt, F64.eq]
    norm_num
  · norm_num

/-- C4 (as amended): for every finite expected value `want > 0` and every
observed value and tolerance other than `NaN`, `cmp(want, have, tolerance)` is
true if and only if the quotient `|want - have| / want`, as the code computes it
in `float64`, is `<= tolerance`; `cmp(100, 101, 0.02)` is true and
`cmp(100, 110, 0.02)` is false. -/
theorem cmp_pos_quotient (want : ℚ) (hv tol : F64) (hpos : 0 < want)
    (hhv : hv ≠ F64.nan) (htol : tol ≠ F64.nan) :
    (cmp (F64.num want) hv tol = true ↔
      F64.le (F64.div (F64.abs (F64.sub (F64.num want) hv)) (F64.num want)) tol = true) ∧
    cmp (F64.num 100) (F64.num 101) (F64.num (2 / 100)) = true ∧
    cmp (F64.num 100) (F64.num 110) (F64.num (2 / 100)) = false := by
  refine ⟨?_, ?_, ?_⟩
  · rw [cmp_eq_not_gt, F64.gt,
      F64.not_lt_eq_le _ _ (relErr_ne_nan want (ne_of_gt hpos) hv hhv) htol]
  · rw [cmp_num _ _ _ (by norm_num)]
    norm_num
  · rw [cmp_num _ _ _ (by norm_num)]
    norm_num

/-- Witness for C4 (as amended): expected value `100`, observed value `+Inf`,
tolerance `1/50`. -/
theorem cmp_pos_quotient_witness :
    (0 : ℚ) < 100 ∧
    (cmp (F64.num 100) F64.pinf (F64.num (1 / 50)) = true ↔
      F64.le (F64.div (F64.abs (F64.sub (F64.num 100) F64.pinf)) (F64.num 100))
        (F64.num (1 / 50)) = true) :=
  ⟨by norm_num,
   (cmp_pos_quotient 100 F64.pinf (F64.num (1 / 50)) (by norm_num) (by simp) (by simp)).1⟩

/-- Counterexample to C4 as stated: with expected value `100` and observed value
`NaN` at tolerance `0`, and with observed value `101` at tolerance `NaN`, `cmp`
returns true although `|want - have| <= tolerance * want` is false. -/
theorem cmp_product_counterexample :
    cmp (F64.num 100) F64.nan (F64.num 0) = true ∧
    productSpec (F64.num 100) F64.nan (F64.num 0) = false ∧
    cmp (F64.num 100) (F64.num 101) F64.nan = true ∧
    productSpec (F64.num 100) (F64.num 101) F64.nan = false := by
  refine ⟨?_, ?_, ?_, ?_⟩
  · simp [cmp, F64.sub, F64.neg, F64.add, F64.abs, F64.div, F64.gt, F64.lt]
  · simp [productSpec, F64.sub, F64.neg, F64.add, F64.abs, F64.le, F64.lt, F64.eq]
  · rw [cmp_eq_not_gt]
    simp [F64.gt, F64.lt]
  · simp [productSpec, F64.mul, F64.le, F64.lt, F64.eq]
    generalize F64.abs (F64.sub (num 100) (num 101)) = x
    cases x <;> simp

/-- With expected value `+0`, the relative error is `NaN` when the observed
value is a zero and `+Inf` otherwise, so for a tolerance that is neither `NaN`
nor `+Inf` the comparator accepts exactly the observed values equal to zero. -/
theorem cmp_zero_general (hv tol : F64) (hhv : hv ≠ nan) (ht : tol ≠ nan) (ht2 : tol ≠ pinf) :
    cmp (num 0) hv tol = F64.eq hv (num 0) := by
  rw [cmp_eq_not_gt]
  cases hv with
  | num h =>
    by_cases hz : h = 0
    · subst hz
      simp [F64.sub, F64.neg, F64.add, F64.abs, F64.div, F64.isInf, F64.isZero, F64.gt,
        F64.eq, F64.toRat]
      cases tol <;> simp [F64.lt]
    · have hab : ¬ |h| < 0 := not_lt.mpr (abs_nonneg h)
      simp [F64.sub, F64.neg, F64.add, F64.abs, F64.div, F64.isInf, F64.isZero, F64.gt,
        F64.eq, F64.toRat, hz, F64.infOf, F64.signBit, hab]
      cases tol <;> simp_all [F64.lt]
  | nzero =>
    simp [F64.sub, F64.neg, F64.add, F64.abs, F64.div, F64.isInf, F64.isZero, F64.gt,
      F64.eq, F64.toRat]
    cases tol <;> simp [F64.lt]
  | pinf =>
    simp [F64.sub, F64.neg, F64.add, F64.abs, F64.div, F64.isInf, F64.isZero, F64.gt,
      F64.eq, F64.toRat, F64.infOf, F64.signBit]
    cases tol <;> simp_all [F64.lt]
  | ninf =>
    simp [F64.sub, F64.neg, F64.add, F64.abs, F64.div, F64.isInf, F64.isZero, F64.gt,
      F64.eq, F64.toRat, F64.infOf, F64.signBit]
    cases tol <;> simp_all [F64.lt]
  | nan => exact absurd rfl hhv

theorem F64.eq_zero_right_iff (hv : F64) :
    F64.eq hv (num 0) = true ↔ (hv = num 0 ∨ hv = nzero) := by
  cases hv <;> simp [F64.eq, F64.toRat]

/-- C5 (as amended): when the expected value is `+0`, for every tolerance other
than `+Inf` and `NaN` and every observed value other than `NaN`,
`cmp(0, have, tolerance)` is true if and only if `have` is `0` (that is `+0` or
`-0`); `cmp(0, 0, tol)` is true for every tolerance whatsoever, and
`cmp(0, 0.001, tolerance)` is false. -/
theorem cmp_poszero_iff (hv tol : F64) (hhv : hv ≠ F64.nan) (ht : tol ≠ F64.nan)
    (ht2 : tol ≠ F64.pinf) :
    (cmp (F64.num 0) hv tol = true ↔ F64.eq hv (F64.num 0) = true) ∧
    (cmp (F64.num 0) hv tol = true ↔ (hv = F64.num 0 ∨ hv = F64.nzero)) ∧
    (∀ t : F64, cmp (F64.num 0) (F64.num 0) t = true) ∧
    cmp (F64.num 0) (F64.num (1 / 1000)) tol = false := by
  refine ⟨?_, ?_, ?_, ?_⟩
  · rw [cmp_zero_general hv tol hhv ht ht2]
  · rw [cmp_zero_general hv tol hhv ht ht2, F64.eq_zero_right_iff]
  · intro t
    rw [cmp_eq_not_gt]
    simp [F64.sub, F64.neg, F64.add, F64.abs, F64.div, F64.isInf, F64.isZero, F64.gt]
    cases t <;> simp [F64.lt]
  · rw [cmp_zero_general _ tol (by simp) ht ht2]
    simp [F64.eq, F64.toRat]

/-- Witness for C5 (as amended): observed value `-0` at tolerance `1/50`. -/
theorem cmp_poszero_iff_witness :
    F64.nzero ≠ F64.nan ∧ F64.num (1 / 50) ≠ F64.nan ∧ F64.num (1 / 50) ≠ F64.pinf ∧
    (cmp (F64.num 0) F64.nzero (F64.num (1 / 50)) = true ↔
      (F64.nzero = F64.num 0 ∨ F64.nzero = F64.nzero)) :=
  ⟨by simp, by simp, by simp,
   (cmp_poszero_iff F64.nzero (F64.num (1 / 50)) (by simp) (by simp) (by simp)).2.1⟩

/-- Counterexample to C5 as stated: with expected value `+0` and observed value
`0.001`, `cmp` returns true at tolerance `+Inf` and at tolerance `NaN`; and with
the zero expected value `-0` and observed value `1` it returns true at tolerance
`1/2`. -/
theorem cmp_zero_counterexample :
    cmp (F64.num 0) (F64.num (1 / 1000)) F64.pinf = true ∧
    cmp (F64.num 0) (F64.num (1 / 1000)) F64.nan = true ∧
    cmp F64.nzero (F64.num 1) (F64.num (1 / 2)) = true := by
  refine ⟨?_, ?_, ?_⟩
  · rw [cmp_eq_not_gt]
    generalize F64.div (F64.abs (F64.sub (num 0) (num (1 / 1000)))) (num 0) = x
    cases x <;> simp [F64.gt, F64.lt]
  · rw [cmp_eq_not_gt]
    simp [F64.gt, F64.lt]
  · rw [cmp_eq_not_gt]
    simp [F64.sub, F64.neg, F64.add, F64.abs, F64.div, F64.isInf, F64.isZero, F64.gt,
      F64.infOf, F64.signBit, F64.lt]

/-! ## Histogram -/

theorem TestHistogram_errs_eq (fmtF : F64 → String) (w50 w90 w95 w99 h50 h90 h95 h99 tol : F64) :
    TestHistogram.errs fmtF (w50, w90, w95, w99) (h50, h90, h95, h99) tol =
      (([("p50", w50, h50), ("p90", w90, h90), ("p95", w95, h95), ("p99", w99, h99)].filter
          (fun q => !cmp q.2.1 q.2.2 tol)).map
        (fun q => quantileMsg fmtF q.1 q.2.1 q.2.2)) := by
  simp only [TestHistogram.errs, quantileMsg]
  cases h1 : cmp w50 h50 tol <;> cases h2 : cmp w90 h90 tol <;>
    cases h3 : cmp w95 h95 tol <;> cases h4 : cmp w99 h99 tol <;>
    simp [List.filter, h1, h2, h3, h4]


theorem TestHistogram_run {σ : Type} (fmtF : F64 → String) (helpers : Helpers)
    (histogram : Histogram σ) (quantiles : σ → (F64 × F64 × F64 × F64) × σ)
    (tolerance : F64) (rand : Rand) (s : σ) (w50 w90 w95 w99 h50 h90 h95 h99 : F64)
    (hwant : helpers.normalQuantiles 500 25 = (w50, w90, w95, w99))
    (hread : (quantiles (helpers.populateNormal histogram rand.Int 500 25 s)).1
      = (h50, h90, h95, h99)) :
    (TestHistogram fmtF helpers histogram quantiles tolerance rand s).1 =
      (if (TestHistogram.errs fmtF (w50, w90, w95, w99) (h50, h90, h95, h99) tolerance).length > 0
       then some (String.intercalate "; "
        (TestHistogram.errs fmtF (w50, w90, w95, w99) (h50, h90, h95, h99) tolerance))
       else none) := by
  simp only [TestHistogram, hwant, hread]
  split <;> rfl

/-- The error of `TestHistogram` is `nil` exactly when the four comparisons
pass. -/
theorem TestHistogram_nil_iff {σ : Type} (fmtF : F64 → String) (helpers : Helpers)
    (histogram : Histogram σ) (quantiles : σ → (F64 × F64 × F64 × F64) × σ)
    (tolerance : F64) (rand : Rand) (s : σ) (w50 w90 w95 w99 h50 h90 h95 h99 : F64)
    (hwant : helpers.normalQuantiles 500 25 = (w50, w90, w95, w99))
    (hread : (quantiles (helpers.populateNormal histogram rand.Int 500 25 s)).1
      = (h50, h90, h95, h99)) :
    (TestHistogram fmtF helpers histogram quantiles tolerance rand s).1 = none ↔
      (cmp w50 h50 tolerance = true ∧ cmp w90 h90 tolerance = true ∧
       cmp w95 h95 tolerance = true ∧ cmp w99 h99 tolerance = true) := by
  rw [TestHistogram_run fmtF helpers histogram quantiles tolerance rand s
    w50 w90 w95 w99 h50 h90 h95 h99 hwant hread, TestHistogram_errs_eq]
  cases h1 : cmp w50 h50 tolerance <;> cases h2 : cmp w90 h90 tolerance <;>
    cases h3 : cmp w95 h95 tolerance <;> cases h4 : cmp w99 h99 tolerance <;>
    simp [List.filter, h1, h2, h3, h4]

/-- C6: for every read-back 4-tuple `(h50, h90, h95, h99)` and every tolerance,
`TestHistogram` returns `nil` if and only if the four comparisons
`cmp(want_q, have_q, tolerance)` against the quantiles returned by
`normalQuantiles(500, 25)` all succeed; one failing comparison suffices for an
error. -/
theorem TestHistogram_ok_iff {σ : Type} (fmtF : F64 → String) (helpers : Helpers)
    (histogram : Histogram σ) (quantiles : σ → (F64 × F64 × F64 × F64) × σ)
    (tolerance : F64) (rand : Rand) (s : σ) (w50 w90 w95 w99 h50 h90 h95 h99 : F64)
    (hwant : helpers.normalQuantiles 500 25 = (w50, w90, w95, w99))
    (hread : (quantiles (helpers.populateNormal histogram rand.Int 500 25 s)).1
      = (h50, h90, h95, h99)) :
    ((TestHistogram fmtF helpers histogram quantiles tolerance rand s).1 = none ↔
      (cmp w50 h50 tolerance = true ∧ cmp w90 h90 tolerance = true ∧
       cmp w95 h95 tolerance = true ∧ cmp w99 h99 tolerance = true)) ∧
    ((cmp w50 h50 tolerance = false ∨ cmp w90 h90 tolerance = false ∨
       cmp w95 h95 tolerance = false ∨ cmp w99 h99 tolerance = false) →
      (TestHistogram fmtF helpers histogram quantiles tolerance rand s).1 ≠ none) := by
  rw [TestHistogram_run fmtF helpers histogram quantiles tolerance rand s
    w50 w90 w95 w99 h50 h90 h95 h99 hwant hread, TestHistogram_errs_eq]
  cases h1 : cmp w50 h50 tolerance <;> cases h2 : cmp w90 h90 tolerance <;>
    cases h3 : cmp w95 h95 tolerance <;> cases h4 : cmp w99 h99 tolerance <;>
    simp [List.filter, h1, h2, h3, h4]

/-- Witness for C6: the stand-in helpers and a read-back reporting
`(500, 600, 541, 700)` at tolerance `1/50`. -/
theorem TestHistogram_ok_iff_witness :
    helpersStub.normalQuantiles 500 25
      = (F64.num 500, F64.num 532, F64.num 541, F64.num 558) ∧
    (readBadTails (helpersStub.populateNormal nullHistogram randA.Int 500 25 ())).1
      = (F64.num 500, F64.num 600, F64.num 541, F64.num 700) ∧
    ((TestHistogram fmtStub helpersStub nullHistogram readBadTails (F64.num (1 / 50))
        randA ()).1 = none ↔
      (cmp (F64.num 500) (F64.num 500) (F64.num (1 / 50)) = true ∧
       cmp (F64.num 532) (F64.num 600) (F64.num (1 / 50)) = true ∧
       cmp (F64.num 541) (F64.num 541) (F64.num (1 / 50)) = true ∧
       cmp (F64.num 558) (F64.num 700) (F64.num (1 / 50)) = true)) :=
  ⟨rfl, rfl,
   (TestHistogram_ok_iff fmtStub helpersStub nullHistogram readBadTails (F64.num (1 / 50))
      randA () _ _ _ _ _ _ _ _ rfl rfl).1⟩

/-- C7: the error of `TestHistogram` is the list of the labelled messages
`"p50: want X, have Y"`, ..., `"p99: want X, have Y"` of exactly the quantiles
whose comparison failed, in the fixed order p50, p90, p95, p99, joined by
`"; "` (and `nil` when that list is empty): every check is evaluated, also
after an earlier one failed.  When p90 and p99 are out of tolerance and p50 and
p95 within, the error consists of the p90 message and the p99 message only. -/
theorem TestHistogram_report {σ : Type} (fmtF : F64 → String) (helpers : Helpers)
    (histogram : Histogram σ) (quantiles : σ → (F64 × F64 × F64 × F64) × σ)
    (tolerance : F64) (rand : Rand) (s : σ) (w50 w90 w95 w99 h50 h90 h95 h99 : F64)
    (hwant : helpers.normalQuantiles 500 25 = (w50, w90, w95, w99))
    (hread : (quantiles (helpers.populateNormal histogram rand.Int 500 25 s)).1
      = (h50, h90, h95, h99)) :
    (TestHistogram fmtF helpers histogram quantiles tolerance rand s).1 =
      (let failed :=
        [("p50", w50, h50), ("p90", w90, h90), ("p95", w95, h95), ("p99", w99, h99)].filter
          (fun q => !cmp q.2.1 q.2.2 tolerance)
       let msgs := failed.map (fun q => quantileMsg fmtF q.1 q.2.1 q.2.2)
       if msgs.length > 0 then some (String.intercalate "; " msgs) else none) ∧
    (cmp w50 h50 tolerance = true → cmp w90 h90 tolerance = false →
      cmp w95 h95 tolerance = true → cmp w99 h99 tolerance = false →
      (TestHistogram fmtF helpers histogram quantiles tolerance rand s).1 =
        some (quantileMsg fmtF "p90" w90 h90 ++ "; " ++ quantileMsg fmtF "p99" w99 h99)) := by
  rw [TestHistogram_run fmtF helpers histogram quantiles tolerance rand s
    w50 w90 w95 w99 h50 h90 h95 h99 hwant hread, TestHistogram_errs_eq]
  refine ⟨rfl, ?_⟩
  intro h1 h2 h3 h4
  simp [List.filter, h1, h2, h3, h4, String.intercalate, String.intercalate.go]

/-- Witness for C7: with the stand-in helpers, a read-back reporting
`(500, 600, 541, 700)` at tolerance `1/50` fails p90 and p99 only. -/
theorem TestHistogram_report_witness :
    helpersStub.normalQuantiles 500 25
      = (F64.num 500, F64.num 532, F64.num 541, F64.num 558) ∧
    (readBadTails (helpersStub.populateNormal nullHistogram randA.Int 500 25 ())).1
      = (F64.num 500, F64.num 600, F64.num 541, F64.num 700) ∧
    (TestHistogram fmtStub helpersStub nullHistogram readBadTails (F64.num (1 / 50))
        randA ()).1 = some "p90: want ?, have ?; p99: want ?, have ?" :=
  ⟨rfl, rfl,
   (TestHistogram_report fmtStub helpersStub nullHistogram readBadTails (F64.num (1 / 50))
      randA () _ _ _ _ _ _ _ _ rfl rfl).2
      (by rw [cmp_num _ _ _ (by norm_num)]; norm_num)
      (by rw [cmp_num _ _ _ (by norm_num)]; norm_num)
      (by rw [cmp_num _ _ _ (by norm_num)]; norm_num)
      (by rw [cmp_num _ _ _ (by norm_num)]; norm_num)⟩

theorem foldl_add_ofInt (l : List Int) (p : ℚ) :
    (l.map F64.ofInt).foldl F64.add (num p) = num (p + ((l.sum : Int) : ℚ)) := by
  induction l generalizing p with
  | nil => simp
  | cons x xs ih =>
    simp only [List.map_cons, List.foldl_cons, F64.add_num_ofInt, ih, List.sum_cons]
    push_cast
    rw [add_assoc]

theorem Rand.Lawful.length_perm {rand : Rand} (h : rand.Lawful) :
    (rand.Perm 100).length = 100 := by
  simpa using (h.1 100).length_eq

theorem Rand.Lawful.intn_lt {rand : Rand} (h : rand.Lawful) : rand.Intn 100 < 100 :=
  h.2 100 (by decide)

/-- C8: the expected result never depends on the observed result.  For the
counter and for the gauge there is one function of the workload alone, and for
the histogram one 4-tuple fixed by `normalQuantiles(500, 25)` alone, such that
whatever the instrument under test, its initial state, the read-back closure,
the rendering of the messages, the seed and the tolerance, the verdict of the
run is the comparison of the read-back value with that expected value. -/
theorem expected_independent_of_observed :
    (∃ expected : List F64 → F64,
      ∀ (σ : Type) (fmtF : F64 → String) (counter : Counter σ) (value : σ → F64 × σ)
        (rand : Rand) (s : σ), rand.Lawful →
        TestCounter fmtF counter value rand s =
          (let w := workload (rand.Perm 100) (rand.Intn 100)
           let r := value (feed counter.Add w s)
           if F64.ne (expected w) r.1 then
             some (some ("want " ++ fmtF (expected w) ++ ", have " ++ fmtF r.1), r.2)
           else some (none, r.2))) ∧
    (∃ expected : List F64 → F64,
      ∀ (σ : Type) (fmtF : F64 → String) (gauge : Gauge σ) (value : σ → F64 × σ)
        (rand : Rand) (s : σ), rand.Lawful →
        TestGauge fmtF gauge value rand s =
          (let w := workload (rand.Perm 100) (rand.Intn 100)
           let r := value (feed gauge.Set w s)
           if F64.ne (expected w) r.1 then
             some (some ("want " ++ fmtF (expected w) ++ ", have " ++ fmtF r.1), r.2)
           else some (none, r.2))) ∧
    (∀ helpers : Helpers, ∃ expected : F64 × F64 × F64 × F64,
      expected = helpers.normalQuantiles 500 25 ∧
      ∀ (σ : Type) (fmtF : F64 → String) (histogram : Histogram σ)
        (quantiles : σ → (F64 × F64 × F64 × F64) × σ) (tolerance : F64) (rand : Rand)
        (s : σ),
        TestHistogram fmtF helpers histogram quantiles tolerance rand s =
          (let r := quantiles (helpers.populateNormal histogram rand.Int 500 25 s)
           let errs := TestHistogram.errs fmtF expected r.1 tolerance
           if errs.length > 0 then (some (String.intercalate "; " errs), r.2)
           else (none, r.2))) := by
  refine ⟨⟨fun w => w.foldl F64.add (num 0), ?_⟩, ⟨fun w => w.getLast?.getD (num 0), ?_⟩, ?_⟩
  · intro σ fmtF counter value rand s hlaw
    rw [TestCounter_run fmtF counter value rand s hlaw.length_perm (le_of_lt hlaw.intn_lt)]
    simp only [workload, foldl_add_ofInt, zero_add, sum_cast]
  · intro σ fmtF gauge value rand s hlaw
    rw [TestGauge_run fmtF gauge value rand s hlaw.length_perm (le_of_lt hlaw.intn_lt)]
    simp only [workload, List.getLast?_map]
  · intro helpers
    exact ⟨_, rfl, fun σ fmtF histogram quantiles tolerance rand s => rfl⟩

/-- Witness for C8: the lawful random source `randA` with the reference
counter. -/
theorem expected_independent_of_observed_witness :
    randA.Lawful ∧
    ∃ expected : List F64 → F64,
      TestCounter fmtStub sumCounter readState randA (F64.num 0) =
        (let w := workload (randA.Perm 100) (randA.Intn 100)
         let r := readState (feed sumCounter.Add w (F64.num 0))
         if F64.ne (expected w) r.1 then
           some (some ("want " ++ fmtStub (expected w) ++ ", have " ++ fmtStub r.1), r.2)
         else some (none, r.2)) :=
  ⟨randA_lawful,
   expected_independent_of_observed.1.imp
     (fun _ h => h F64 fmtStub sumCounter readState randA (F64.num 0) randA_lawful)⟩

theorem permB_perm : List.Perm permB zeroTo99 := by
  decide

theorem randB_lawful : randB.Lawful := by
  constructor
  · intro k
    by_cases hk : k = 100
    · subst hk
      simpa [randB, zeroTo99] using permB_perm
    · simp [randB, hk]
  · intro k hk
    simp only [randB]
    by_cases h3 : 99 < k
    · simp [h3]
    · simp only [h3, if_false]; exact hk

theorem randZero_lawful : randZero.Lawful :=
  ⟨fun _ => List.Perm.refl _, fun _ hk => hk⟩

set_option maxRecDepth 100000 in
theorem permB_sum : (permB.take 99).sum = 4950 := by
  decide

set_option maxRecDepth 100000 in
theorem zeroTo99_sum : zeroTo99.sum = 4950 := by
  decide

theorem feed_recCounter (w : List F64) (t : List Call) :
    feed recCounter.Add w t = t ++ w.map Call.add := by
  induction w generalizing t with
  | nil => simp [feed]
  | cons x xs ih =>
    have h := ih (t ++ [Call.add x])
    simp only [feed, List.foldl_cons, List.map_cons] at h ⊢
    rw [show recCounter.Add x t = t ++ [Call.add x] from rfl, h]
    simp

theorem feed_recGauge (w : List F64) (t : List Call) :
    feed recGauge.Set w t = t ++ w.map Call.set := by
  induction w generalizing t with
  | nil => simp [feed]
  | cons x xs ih =>
    have h := ih (t ++ [Call.set x])
    simp only [feed, List.foldl_cons, List.map_cons] at h ⊢
    rw [show recGauge.Set x t = t ++ [Call.set x] from rfl, h]
    simp

theorem F64.eq_zero_iff (hv : F64) :
    F64.eq (num 0) hv = true ↔ (hv = num 0 ∨ hv = nzero) := by
  rw [F64.eq_num_iff]
  simp

/-- C11: when the drawn workload length is `0`, `TestGauge` never invokes
`Set` (the recorded interactions are the single read-back, and any gauge
reaches the read-back in its initial state), the expected value at loop exit is
the zero-initialised default, and the returned error is `nil` if and only if the
read-back value is equal to `0` under Go's `==`, that is, it is `+0` or `-0`;
any other read-back of the never-set gauge is reported as a mismatch. -/
theorem TestGauge_empty {σ : Type} (fmtF : F64 → String) (gauge : Gauge σ)
    (value : σ → F64 × σ) (rand : Rand) (s : σ) (a : List Int) (hv : F64)
    (g : List Call → F64) (t : List Call)
    (ha : rand.Perm 100 = a) (hperm : List.Perm a zeroTo99)
    (hn : rand.Intn a.length = 0) (hread : (value s).1 = hv) :
    TestGauge.loop gauge a 0 0 s (F64.num 0) = some (s, F64.num 0) ∧
    (∃ e, TestGauge fmtF recGauge (recRead g) rand t = some (e, t ++ [Call.read])) ∧
    (∃ r, TestGauge fmtF gauge value rand s = some r ∧ r.2 = (value s).2 ∧
      (r.1 = none ↔ F64.eq (F64.num 0) hv = true) ∧
      (r.1 = none ↔ (hv = F64.num 0 ∨ hv = F64.nzero)) ∧
      (r.1 = if F64.eq (F64.num 0) hv then none
        else some ("want " ++ fmtF (F64.num 0) ++ ", have " ++ fmtF hv))) := by
  have hlen : a.length = 100 := perm_length hperm
  subst ha
  rw [hlen] at hn
  have hrun : ∀ {τ : Type} (gg : Gauge τ) (vv : τ → F64 × τ) (s0 : τ),
      TestGauge fmtF gg vv rand s0 =
        (if F64.ne (F64.num 0) (vv s0).1 then
          some (some ("want " ++ fmtF (F64.num 0) ++ ", have " ++ fmtF (vv s0).1), (vv s0).2)
         else some (none, (vv s0).2)) := by
    intro τ gg vv s0
    rw [TestGauge_run fmtF gg vv rand s0 hlen (by omega)]
    simp [hn, workload, feed]
  refine ⟨?_, ?_, ?_⟩
  · rw [TestGauge.loop]
    simp
  · rw [hrun]
    by_cases h : F64.ne (F64.num 0) (recRead g t).1 = true
    · rw [if_pos h]; exact ⟨_, rfl⟩
    · rw [if_neg h]; exact ⟨_, rfl⟩
  · rw [hrun, hread, ← F64.eq_zero_iff]
    by_cases h : F64.eq (F64.num 0) hv = true
    · simp [F64.ne, h]
    · simp [F64.ne, h]

/-- Witness for C11: the reference gauge, never set and reading `0`, under a
random source that draws the length `0`. -/
theorem TestGauge_empty_witness :
    List.Perm (randZero.Perm 100) zeroTo99 ∧
    randZero.Intn (randZero.Perm 100).length = 0 ∧
    (∃ r, TestGauge fmtStub lastGauge readState randZero (F64.num 0) = some r ∧
      r.1 = none) :=
  ⟨List.Perm.refl _, rfl,
   (TestGauge_empty fmtStub lastGauge readState randZero (F64.num 0) (randZero.Perm 100)
      (F64.num 0) (fun _ => F64.num 0) [] rfl (List.Perm.refl _) rfl rfl).2.2.imp
     (fun _ h => ⟨h.1, h.2.2.2.1.mpr (Or.inl rfl)⟩)⟩

/-- C12: for every permutation `a` of `0..99` and drawn length `n`, the
interactions of `TestCounter` with the instrument, as recorded by a counter and
a read-back closure that log every call, are exactly `Add(a[0])`, ...,
`Add(a[n-1])` in workload order followed by one invocation of the read-back
closure, and those of `TestGauge` are `Set(a[0])`, ..., `Set(a[n-1])` followed by
one invocation of the read-back closure; nothing else is called and the
read-back is not invoked before the workload is exhausted.  For any instrument
the read-back closure is applied to the state reached after the whole
workload. -/
theorem interaction_sequence (fmtF : F64 → String) (rand : Rand) (a : List Int) (n : Nat)
    (g : List Call → F64) (t : List Call)
    (ha : rand.Perm 100 = a) (hperm : List.Perm a zeroTo99)
    (hn : rand.Intn a.length = n) (hlt : n < 100) :
    (∃ e, TestCounter fmtF recCounter (recRead g) rand t
        = some (e, t ++ ((a.take n).map (fun v => Call.add (F64.ofInt v)) ++ [Call.read]))) ∧
    (∃ e, TestGauge fmtF recGauge (recRead g) rand t
        = some (e, t ++ ((a.take n).map (fun v => Call.set (F64.ofInt v)) ++ [Call.read]))) ∧
    (∀ (σ : Type) (counter : Counter σ) (value : σ → F64 × σ) (s : σ),
      ∃ e, TestCounter fmtF counter value rand s
        = some (e, (value (feed counter.Add ((a.take n).map F64.ofInt) s)).2)) ∧
    (∀ (σ : Type) (gauge : Gauge σ) (value : σ → F64 × σ) (s : σ),
      ∃ e, TestGauge fmtF gauge value rand s
        = some (e, (value (feed gauge.Set ((a.take n).map F64.ofInt) s)).2)) := by
  have hlen : a.length = 100 := perm_length hperm
  subst ha
  rw [hlen] at hn
  subst hn
  have hc : ∀ (σ : Type) (counter : Counter σ) (value : σ → F64 × σ) (s : σ),
      ∃ e, TestCounter fmtF counter value rand s
        = some (e, (value (feed counter.Add
            ((List.take (rand.Intn 100) (rand.Perm 100)).map F64.ofInt) s)).2) := by
    intro σ counter value s
    rw [TestCounter_run fmtF counter value rand s hlen (by omega)]
    simp only [workload]
    split
    · exact ⟨_, rfl⟩
    · exact ⟨_, rfl⟩
  have hg : ∀ (σ : Type) (gauge : Gauge σ) (value : σ → F64 × σ) (s : σ),
      ∃ e, TestGauge fmtF gauge value rand s
        = some (e, (value (feed gauge.Set
            ((List.take (rand.Intn 100) (rand.Perm 100)).map F64.ofInt) s)).2) := by
    intro σ gauge value s
    rw [TestGauge_run fmtF gauge value rand s hlen (by omega)]
    simp only [workload]
    split
    · exact ⟨_, rfl⟩
    · exact ⟨_, rfl⟩
  refine ⟨?_, ?_, hc, hg⟩
  · obtain ⟨e, he⟩ := hc _ recCounter (recRead g) t
    refine ⟨e, ?_⟩
    rw [he, feed_recCounter]
    simp [recRead, List.map_map, Function.comp_def]
  · obtain ⟨e, he⟩ := hg _ recGauge (recRead g) t
    refine ⟨e, ?_⟩
    rw [he, feed_recGauge]
    simp [recRead, List.map_map, Function.comp_def]

/-- Witness for C12: the random source `randA`, which draws a permutation
starting `3, 41, 7` and the length `3`: the counter sees `Add(3)`, `Add(41)`,
`Add(7)` and then the read-back. -/
theorem interaction_sequence_witness :
    List.Perm permA zeroTo99 ∧ (3 : Nat) < 100 ∧
    (∃ e, TestCounter fmtStub recCounter (recRead (fun _ => F64.num 51)) randA []
        = some (e, [Call.add (F64.ofInt 3), Call.add (F64.ofInt 41),
            Call.add (F64.ofInt 7), Call.read])) :=
  ⟨permA_perm, by decide,
   (interaction_sequence fmtStub randA permA 3 (fun _ => F64.num 51) [] rfl permA_perm rfl
      (by decide)).1⟩

/-- The reference counter holds the sum of the workload. -/
theorem feed_sumCounter (l : List Int) (p : ℚ) :
    feed sumCounter.Add (l.map F64.ofInt) (num p) = num (p + ((l.sum : Int) : ℚ)) := by
  induction l generalizing p with
  | nil => simp [feed]
  | cons x xs ih =>
    have h := ih (p + x)
    simp only [feed, List.map_cons, List.foldl_cons, List.sum_cons] at h ⊢
    rw [show sumCounter.Add (F64.ofInt x) (num p) = num (p + x) from F64.add_num_ofInt p x, h]
    push_cast
    rw [add_assoc]

theorem F64.ne_self_num (q : ℚ) : F64.ne (num q) (num q) = false := by
  simp [F64.ne, F64.eq, F64.toRat]

/-- C13: the reference counter (state `0` at the start, `Add(d)` replaces the
state by `state + d`, the read-back returns the state) passes `TestCounter` for
every permutation `a` of `0..99` and every drawn length `n` in `0..99`: the
procedure returns `nil`, leaving the counter at the sum of the workload. -/
theorem sumCounter_passes (fmtF : F64 → String) (rand : Rand) (a : List Int) (n : Nat)
    (ha : rand.Perm 100 = a) (hperm : List.Perm a zeroTo99)
    (hn : rand.Intn a.length = n) (hlt : n < 100) :
    TestCounter fmtF sumCounter readState rand (F64.num 0)
      = some (none, F64.num (total a n)) := by
  have hlen : a.length = 100 := perm_length hperm
  subst ha
  rw [hlen] at hn
  subst hn
  rw [TestCounter_run fmtF sumCounter readState rand (F64.num 0) hlen (by omega)]
  simp only [workload, feed_sumCounter, zero_add, sum_cast, readState]
  rw [show ((List.take (rand.Intn 100) (rand.Perm 100)).map (fun v => (v : ℚ))).sum
      = total (rand.Perm 100) (rand.Intn 100) from rfl, F64.ne_self_num]
  simp

/-- Witness for C13: the random source `randA`. -/
theorem sumCounter_passes_witness :
    List.Perm permA zeroTo99 ∧ (3 : Nat) < 100 ∧
    TestCounter fmtStub sumCounter readState randA (F64.num 0)
      = some (none, F64.num (total permA 3)) :=
  ⟨permA_perm, by decide,
   sumCounter_passes fmtStub randA permA 3 rfl permA_perm rfl (by decide)⟩

theorem mem_zeroTo99 {v : Int} (h : v ∈ zeroTo99) : ∃ k : Nat, k ≤ 99 ∧ v = (k : Int) := by
  simp only [zeroTo99, List.mem_map, List.mem_range] at h
  obtain ⟨i, hi, rfl⟩ := h
  exact ⟨i, by omega, rfl⟩

theorem take_sum_bounds {a : List Int} (hperm : List.Perm a zeroTo99) (n : Nat) :
    ∃ k : Nat, k ≤ 4950 ∧ (a.take n).sum = (k : Int) := by
  have hnn : ∀ x ∈ a, (0 : Int) ≤ x := by
    intro x hx
    obtain ⟨k, _, rfl⟩ := mem_zeroTo99 (hperm.subset hx)
    exact Int.ofNat_nonneg k
  have hsum : a.sum = 4950 := by
    rw [hperm.sum_eq, zeroTo99_sum]
  have hsplit : (a.take n).sum + (a.drop n).sum = a.sum := by
    rw [← List.sum_append, List.take_append_drop]
  have h1 : 0 ≤ (a.take n).sum :=
    List.sum_nonneg (fun x hx => hnn x (List.mem_of_mem_take hx))
  have h2 : 0 ≤ (a.drop n).sum :=
    List.sum_nonneg (fun x hx => hnn x (List.mem_of_mem_drop hx))
  refine ⟨(a.take n).sum.toNat, ?_, ?_⟩
  · omega
  · omega

/-- C14: for every permutation `a` of `0..99` and every drawn length `n` in
`0..99`, the expected total at the exit of the loop of `TestCounter` is a whole
number between `0` and `4950`, and `4950` is attained (by the permutation
`1, ..., 99, 0` with length `99`); the expected value at the exit of the loop of
`TestGauge` is a whole number between `0` and `99`. -/
theorem expected_bounds (a : List Int) (n : Nat) (hperm : List.Perm a zeroTo99)
    (hlt : n < 100) :
    (∃ k : Nat, k ≤ 4950 ∧ ∀ (σ : Type) (counter : Counter σ) (s : σ),
      (TestCounter.loop counter a n 0 s (F64.num 0)).map Prod.snd
        = some (F64.num (k : ℚ))) ∧
    (∃ k : Nat, k ≤ 99 ∧ ∀ (σ : Type) (gauge : Gauge σ) (s : σ),
      (TestGauge.loop gauge a n 0 s (F64.num 0)).map Prod.snd
        = some (F64.num (k : ℚ))) ∧
    (∃ r : Rand, r.Lawful ∧ r.Intn (r.Perm 100).length ≤ 99 ∧
      ∀ (σ : Type) (counter : Counter σ) (s : σ),
        (TestCounter.loop counter (r.Perm 100) (r.Intn (r.Perm 100).length) 0 s
          (F64.num 0)).map Prod.snd = some (F64.num 4950)) := by
  have hlen : a.length = 100 := perm_length hperm
  refine ⟨?_, ?_, ?_⟩
  · obtain ⟨k, hk, hsum⟩ := take_sum_bounds hperm n
    refine ⟨k, hk, ?_⟩
    intro σ counter s
    rw [TestCounter_loop_spec counter a n (by omega) n 0 s 0 (by omega)]
    simp only [List.drop_zero, zero_add, Option.map_some', hsum]
    simp
  · by_cases h0 : n = 0
    · refine ⟨0, by omega, ?_⟩
      intro σ gauge s
      rw [TestGauge_loop_spec gauge a n (by omega) n 0 s _ (by omega)]
      simp [h0]
    · have hn1 : n - 1 < a.length := by omega
      obtain ⟨k, hk, hv⟩ := mem_zeroTo99 (hperm.subset (List.getElem_mem hn1))
      refine ⟨k, hk, ?_⟩
      intro σ gauge s
      rw [TestGauge_loop_spec gauge a n (by omega) n 0 s _ (by omega)]
      simp only [List.drop_zero, take_getLast? a n (by omega) (by omega),
        List.getElem?_eq_getElem hn1, hv, Option.map_some', Option.getD_some, F64.ofInt]
      simp
  · refine ⟨randB, randB_lawful, by decide, ?_⟩
    intro σ counter s
    rw [show randB.Perm 100 = permB from rfl,
      show randB.Intn permB.length = 99 from by decide]
    rw [TestCounter_loop_spec counter permB 99 (by decide) 99 0 s 0 (by omega)]
    simp only [List.drop_zero, zero_add, Option.map_some', permB_sum]
    simp

/-- Witness for C14: the permutation `permA` with drawn length `3`. -/
theorem expected_bounds_witness :
    List.Perm permA zeroTo99 ∧ (3 : Nat) < 100 ∧
    (∃ k : Nat, k ≤ 4950 ∧ ∀ (σ : Type) (counter : Counter σ) (s : σ),
      (TestCounter.loop counter permA 3 0 s (F64.num 0)).map Prod.snd
        = some (F64.num (k : ℚ))) :=
  ⟨permA_perm, by decide,
   (expected_bounds permA 3 permA_perm (by decide)).1⟩

theorem F64.abs_sub_ninf (hv : F64) :
    F64.abs (F64.sub ninf hv) = pinf ∨ F64.abs (F64.sub ninf hv) = nan := by
  cases hv with
  | num q =>
    by_cases hq : q = 0 <;> simp [F64.sub, F64.neg, F64.add, F64.abs, hq]
  | nzero => simp [F64.sub, F64.neg, F64.add, F64.abs]
  | pinf => simp [F64.sub, F64.neg, F64.add, F64.abs]
  | ninf => simp [F64.sub, F64.neg, F64.add, F64.abs]
  | nan => simp [F64.sub, F64.neg, F64.add, F64.abs]

/-- C15: `cmp` divides by `want` rather than by `|want|`, so for every expected
value `want < 0` (finite or `-Inf`), every tolerance `>= 0` and every observed
value (finite, infinite or `NaN`), `cmp(want, have, tolerance)` returns true,
however far the observed value is from the expected one. -/
theorem cmp_neg_accepts (want hv tol : F64) (hneg : F64.lt want (F64.num 0) = true)
    (htol : F64.le (F64.num 0) tol = true) : cmp want hv tol = true := by
  rw [cmp_eq_not_gt]
  cases want with
  | num w =>
    have hw : w < 0 := by simpa [F64.lt, F64.toRat] using hneg
    cases hv with
    | num h =>
      obtain ⟨⟨h1, h2⟩, h3⟩ := relErr_num w h (ne_of_lt hw)
      have hx : (F64.div (F64.abs (F64.sub (num w) (num h))) (num w)).toRat ≤ 0 := by
        rw [h3]
        exact div_nonpos_of_nonneg_of_nonpos (abs_nonneg _) (le_of_lt hw)
      generalize F64.div (F64.abs (F64.sub (num w) (num h))) (num w) = x at h1 h2 hx
      cases x <;> cases tol <;>
        simp_all [F64.gt, F64.lt, F64.le, F64.eq, F64.toRat, F64.isInf]
      all_goals first | linarith | (rcases htol with h | h <;> linarith)
    | nzero =>
      obtain ⟨⟨h1, h2⟩, h3⟩ := relErr_num w 0 (ne_of_lt hw)
      have hx : (F64.div (F64.abs (F64.sub (num w) (num 0))) (num w)).toRat ≤ 0 := by
        rw [h3]
        exact div_nonpos_of_nonneg_of_nonpos (abs_nonneg _) (le_of_lt hw)
      have hsub : F64.sub (num w) nzero = F64.sub (num w) (num 0) := by
        simp [F64.sub, F64.neg, F64.add]
      rw [hsub]
      generalize F64.div (F64.abs (F64.sub (num w) (num 0))) (num w) = x at h1 h2 hx
      cases x <;> cases tol <;>
        simp_all [F64.gt, F64.lt, F64.le, F64.eq, F64.toRat, F64.isInf]
      all_goals first | linarith | (rcases htol with h | h <;> linarith)
    | pinf =>
      cases tol <;>
        simp_all [F64.sub, F64.neg, F64.add, F64.abs, F64.div, F64.isInf, F64.infOf,
          F64.signBit, F64.gt, F64.lt, F64.le, F64.eq, F64.toRat]
    | ninf =>
      cases tol <;>
        simp_all [F64.sub, F64.neg, F64.add, F64.abs, F64.div, F64.isInf, F64.infOf,
          F64.signBit, F64.gt, F64.lt, F64.le, F64.eq, F64.toRat]
    | nan =>
      cases tol <;>
        simp_all [F64.sub, F64.neg, F64.add, F64.abs, F64.div, F64.gt, F64.lt]
  | nzero => simp [F64.lt, F64.toRat] at hneg
  | pinf => simp [F64.lt] at hneg
  | ninf =>
    rcases F64.abs_sub_ninf hv with h | h <;> rw [h] <;> cases tol <;>
      simp [F64.div, F64.isInf, F64.gt, F64.lt]
  | nan => simp [F64.lt] at hneg

/-- Witness for C15: expected value `-100`, observed value `1000000`,
tolerance `0`. -/
theorem cmp_neg_accepts_witness :
    F64.lt (F64.num (-100)) (F64.num 0) = true ∧ F64.le (F64.num 0) (F64.num 0) = true ∧
    cmp (F64.num (-100)) (F64.num 1000000) (F64.num 0) = true :=
  ⟨by simp [F64.lt, F64.toRat], by simp [F64.le, F64.lt, F64.eq, F64.toRat],
   cmp_neg_accepts (F64.num (-100)) (F64.num 1000000) (F64.num 0)
     (by simp [F64.lt, F64.toRat]) (by simp [F64.le, F64.lt, F64.eq, F64.toRat])⟩

theorem F64.lt_of_le_of_lt (t1 t2 x : F64) (hle : F64.le t1 t2 = true)
    (hlt : F64.lt t2 x = true) : F64.lt t1 x = true := by
  cases t1 <;> cases t2 <;> cases x <;>
    simp_all [F64.lt, F64.le, F64.eq, F64.toRat]
  all_goals first | linarith | (rcases hle with h | h <;> linarith)

theorem cmp_mono (want hv t1 t2 : F64) (hle : F64.le t1 t2 = true)
    (h : cmp want hv t1 = true) : cmp want hv t2 = true := by
  rw [cmp_eq_not_gt] at h ⊢
  by_contra hc
  have h2 : F64.lt t2 (F64.div (F64.abs (F64.sub want hv)) want) = true := by
    simpa [F64.gt] using hc
  have h1 := F64.lt_of_le_of_lt t1 t2 _ hle h2
  simp [F64.gt, h1] at h


/-- C16: the comparator is monotone in the tolerance: for every expected and
observed value and all tolerances `t1 <= t2`, if `cmp(want, have, t1)` is true
then `cmp(want, have, t2)` is true; hence, the instrument, the read-back and the
draws being the same, if `TestHistogram` returns `nil` at tolerance `t1` it
returns `nil` at tolerance `t2`. -/
theorem tolerance_monotone {σ : Type} (fmtF : F64 → String) (helpers : Helpers)
    (histogram : Histogram σ) (quantiles : σ → (F64 × F64 × F64 × F64) × σ)
    (rand : Rand) (s : σ) (want hv t1 t2 : F64) (hle : F64.le t1 t2 = true) :
    (cmp want hv t1 = true → cmp want hv t2 = true) ∧
    ((TestHistogram fmtF helpers histogram quantiles t1 rand s).1 = none →
      (TestHistogram fmtF helpers histogram quantiles t2 rand s).1 = none) := by
  refine ⟨cmp_mono want hv t1 t2 hle, ?_⟩
  have hiff := fun t => TestHistogram_nil_iff fmtF helpers histogram quantiles t rand s
    (helpers.normalQuantiles 500 25).1 (helpers.normalQuantiles 500 25).2.1
    (helpers.normalQuantiles 500 25).2.2.1 (helpers.normalQuantiles 500 25).2.2.2
    (quantiles (helpers.populateNormal histogram rand.Int 500 25 s)).1.1
    (quantiles (helpers.populateNormal histogram rand.Int 500 25 s)).1.2.1
    (quantiles (helpers.populateNormal histogram rand.Int 500 25 s)).1.2.2.1
    (quantiles (helpers.populateNormal histogram rand.Int 500 25 s)).1.2.2.2 rfl rfl
  intro h
  obtain ⟨h50, h90, h95, h99⟩ := (hiff t1).mp h
  exact (hiff t2).mpr ⟨cmp_mono _ _ t1 t2 hle h50, cmp_mono _ _ t1 t2 hle h90,
    cmp_mono _ _ t1 t2 hle h95, cmp_mono _ _ t1 t2 hle h99⟩

/-- Witness for C16: tolerances `1/50 <= 1/10` with expected value `100` and
observed value `101`. -/
theorem tolerance_monotone_witness :
    F64.le (F64.num (1 / 50)) (F64.num (1 / 10)) = true ∧
    (cmp (F64.num 100) (F64.num 101) (F64.num (1 / 50)) = true →
      cmp (F64.num 100) (F64.num 101) (F64.num (1 / 10)) = true) :=
  have hle : F64.le (F64.num (1 / 50)) (F64.num (1 / 10)) = true := by
    simp [F64.le, F64.lt, F64.eq, F64.toRat]
    norm_num
  ⟨hle, (tolerance_monotone fmtStub helpersStub nullHistogram readBadTails randA ()
      (F64.num 100) (F64.num 101) (F64.num (1 / 50)) (F64.num (1 / 10)) hle).1⟩

theorem cmp_nan (want tol : F64) : cmp want nan tol = true := by
  rw [cmp_eq_not_gt]
  have h : F64.sub want nan = nan := by
    cases want <;> simp [F64.sub, F64.neg, F64.add]
  rw [h]
  cases tol <;> simp [F64.abs, F64.div, F64.gt, F64.lt]

/-- C17: with the IEEE-754 comparison semantics, when the observed value is
`NaN`, `cmp(want, NaN, tolerance)` returns true for every expected value and
every tolerance (the test `NaN > tol` is false), so `TestHistogram` returns `nil`
for a histogram whose read-back reports `NaN` for all four quantiles. -/
theorem TestHistogram_nan_passes {σ : Type} (fmtF : F64 → String) (helpers : Helpers)
    (histogram : Histogram σ) (quantiles : σ → (F64 × F64 × F64 × F64) × σ)
    (tolerance : F64) (rand : Rand) (s : σ)
    (hread : (quantiles (helpers.populateNormal histogram rand.Int 500 25 s)).1
      = (F64.nan, F64.nan, F64.nan, F64.nan)) :
    (∀ want tol : F64, cmp want F64.nan tol = true) ∧
    (TestHistogram fmtF helpers histogram quantiles tolerance rand s).1 = none := by
  refine ⟨cmp_nan, ?_⟩
  exact (TestHistogram_nil_iff fmtF helpers histogram quantiles tolerance rand s
    (helpers.normalQuantiles 500 25).1 (helpers.normalQuantiles 500 25).2.1
    (helpers.normalQuantiles 500 25).2.2.1 (helpers.normalQuantiles 500 25).2.2.2
    nan nan nan nan rfl hread).mpr
    ⟨cmp_nan _ _, cmp_nan _ _, cmp_nan _ _, cmp_nan _ _⟩

/-- Witness for C17: the stand-in helpers and a read-back reporting `NaN` four
times, at tolerance `1/50`. -/
theorem TestHistogram_nan_passes_witness :
    (readNaN (helpersStub.populateNormal nullHistogram randA.Int 500 25 ())).1
      = (F64.nan, F64.nan, F64.nan, F64.nan) ∧
    (TestHistogram fmtStub helpersStub nullHistogram readNaN (F64.num (1 / 50))
      randA ()).1 = none :=
  ⟨rfl, (TestHistogram_nan_passes fmtStub helpersStub nullHistogram readNaN
      (F64.num (1 / 50)) randA () rfl).2⟩

/-! ## The workload -/

/-- C10: under the contract of `math/rand`, `TestCounter` and `TestGauge` apply
to the instrument exactly the first `n` entries of the slice drawn by
`rand.Perm(100)`, a permutation of `0..99`, each converted to `float64`, in
order, where `n` is the number drawn by `rand.Intn(len(a))`, so `0 <= n <= 99`
and never all 100 values, and then read back once; when `n = 0` nothing is
applied and `TestCounter` compares the read-back with the expected value `0`.
Every length from `0` to `99` occurs under some random source. -/
theorem workload_shape (fmtF : F64 → String) (rand : Rand) (g : List Call → F64)
    (t : List Call) (hlaw : rand.Lawful) :
    List.Perm (rand.Perm 100) zeroTo99 ∧
    rand.Intn (rand.Perm 100).length ≤ 99 ∧
    (((rand.Perm 100).take (rand.Intn (rand.Perm 100).length)).map F64.ofInt).length
      = rand.Intn (rand.Perm 100).length ∧
    (∃ e, TestCounter fmtF recCounter (recRead g) rand t
      = some (e, t ++ ((((rand.Perm 100).take (rand.Intn (rand.Perm 100).length)).map
          F64.ofInt).map Call.add ++ [Call.read]))) ∧
    (∃ e, TestGauge fmtF recGauge (recRead g) rand t
      = some (e, t ++ ((((rand.Perm 100).take (rand.Intn (rand.Perm 100).length)).map
          F64.ofInt).map Call.set ++ [Call.read]))) ∧
    (rand.Intn (rand.Perm 100).length = 0 →
      ∀ (σ : Type) (counter : Counter σ) (value : σ → F64 × σ) (s : σ),
        TestCounter fmtF counter value rand s =
          some (if F64.ne (F64.num 0) (value s).1 then
              some ("want " ++ fmtF (F64.num 0) ++ ", have " ++ fmtF (value s).1)
            else none, (value s).2)) ∧
    (∀ k : Nat, k < 100 → ∃ r : Rand, r.Lawful ∧ r.Intn (r.Perm 100).length = k ∧
      ∃ e tr, TestCounter fmtF recCounter (recRead g) r [] = some (e, tr) ∧
        tr.length = k + 1) := by
  have hrun : ∀ (r : Rand), r.Lawful → ∀ (t0 : List Call),
      ∃ e, TestCounter fmtF recCounter (recRead g) r t0
        = some (e, t0 ++ ((((r.Perm 100).take (r.Intn (r.Perm 100).length)).map
            F64.ofInt).map Call.add ++ [Call.read])) := by
    intro r hr t0
    rw [TestCounter_run fmtF recCounter (recRead g) r t0 hr.length_perm
      (le_of_lt hr.intn_lt)]
    simp only [workload, feed_recCounter, recRead, hr.length_perm, List.append_assoc]
    split
    · exact ⟨_, rfl⟩
    · exact ⟨_, rfl⟩
  have hlen : (rand.Perm 100).length = 100 := hlaw.length_perm
  have hlt : rand.Intn 100 < 100 := hlaw.intn_lt
  refine ⟨?_, ?_, ?_, hrun rand hlaw t, ?_, ?_, ?_⟩
  · simpa [zeroTo99] using hlaw.1 100
  · rw [hlen]; omega
  · rw [hlen]
    simp [List.length_take, hlen]
    omega
  · rw [TestGauge_run fmtF recGauge (recRead g) rand t hlen (le_of_lt hlt)]
    simp only [workload, feed_recGauge, recRead, hlen, List.append_assoc]
    split
    · exact ⟨_, rfl⟩
    · exact ⟨_, rfl⟩
  · intro h0 σ counter value s
    rw [hlen] at h0
    rw [TestCounter_run fmtF counter value rand s hlen (le_of_lt hlt)]
    have hw : workload (rand.Perm 100) (rand.Intn 100) = [] := by
      rw [h0]; rfl
    have hs : ((List.take (rand.Intn 100) (rand.Perm 100)).map (fun v => (v : ℚ))).sum
        = 0 := by
      rw [h0]; rfl
    simp only [hw, hs, feed, List.foldl_nil]
    by_cases h : F64.ne (F64.num 0) (value s).1 = true
    · rw [if_pos h, if_pos h]
    · rw [if_neg h, if_neg h]
  · intro k hk
    have hr : Rand.Lawful ⟨fun m => (List.range m).map Int.ofNat,
        fun m => if k < m then k else 0, 0⟩ := by
      refine ⟨fun m => List.Perm.refl _, ?_⟩
      intro m hm
      by_cases hkm : k < m
      · simp [hkm]
      · simp only [hkm, if_false]
        exact hm
    refine ⟨_, hr, by simp [hk], ?_⟩
    obtain ⟨e, he⟩ := hrun _ hr []
    refine ⟨e, _, he, ?_⟩
    simp [hk]
    omega

/-- Witness for C10: the random source `randA`, which draws a permutation
starting `3, 41, 7` and the length `3`: `TestCounter` applies `3`, `41`, `7` and
reads back. -/
theorem workload_shape_witness :
    randA.Lawful ∧
    (∃ e, TestCounter fmtStub recCounter (recRead (fun _ => F64.num 51)) randA []
      = some (e, [Call.add (F64.ofInt 3), Call.add (F64.ofInt 41),
          Call.add (F64.ofInt 7), Call.read])) :=
  ⟨randA_lawful,
   (workload_shape fmtStub randA (fun _ => F64.num 51) [] randA_lawful).2.2.2.1⟩

end teststat
